import Mathlib

/-!
Shallow embedding of the queuectl job-queue core (storage layer and job
manager) and proofs about its data model, leasing predicates, retry/backoff
policy and dead-letter handling.

Modelling conventions:
* ISO-8601 UTC timestamps are totally ordered text of a fixed shape, so they
  are modelled as natural numbers (`Time`); SQL `NULL` becomes `Option`.
* The SQLite `jobs` table is a list of rows; the `id` column is the primary
  key, which appears in theorems as a `Nodup` hypothesis on the ids.
* The select-then-CAS lease takes an explicit `interf` parameter: the database
  transformation performed by concurrently racing workers between the SELECT
  and the conditional UPDATE.  The sequential (no-contention) behaviour is
  obtained with the identity interference.
-/

namespace QueueCTL

abbrev Time := Nat

def statePending : String := "pending"
def stateProcessing : String := "processing"
def stateCompleted : String := "completed"
def stateFailed : String := "failed"
def stateDead : String := "dead"

/-- Row of the `jobs` table (storage.py `_init_database`). -/
structure Job where
  id : String
  command : String
  state : String
  attempts : Nat
  max_retries : Nat
  created_at : Time
  updated_at : Time
  next_retry_at : Option Time
  worker_id : Option String
  priority : Int
  run_at : Option Time
  timeout : Option Int
  last_output : Option String
  duration_ms : Option Int
deriving DecidableEq

/-- Row of the `job_logs` table. -/
structure LogRow where
  job_id : String
  state : String
  success : Bool
  attempts : Nat
  duration_ms : Option Int
  output : Option String
  created_at : Time
deriving DecidableEq

/-- The whole SQLite database. -/
structure DB where
  jobs : List Job
  logs : List LogRow
deriving DecidableEq

/-- A job dict as accepted by `Storage.create_job` / `JobManager.enqueue`:
`id` and `command` are required, every other key is optional (`none` models
an absent key, matching Python's `dict.get(key, default)`). -/
structure JobData where
  id : String
  command : String
  state : Option String := none
  attempts : Option Nat := none
  max_retries : Option Nat := none
  created_at : Option Time := none
  updated_at : Option Time := none
  next_retry_at : Option Time := none
  worker_id : Option String := none
  priority : Option Int := none
  run_at : Option Time := none
  timeout : Option Int := none
  last_output : Option String := none
  duration_ms : Option Int := none
deriving DecidableEq

/-- The values `config.get` returns for the keys the manager reads. -/
structure Config where
  max_retries : Nat
  backoff_base : Nat
  default_priority : Int
  default_timeout : Int
deriving DecidableEq

/-- The row inserted by `Storage.create_job` (defaults from its INSERT). -/
def rowOfJobData (jd : JobData) (now : Time) : Job :=
  { id := jd.id
    command := jd.command
    state := jd.state.getD statePending
    attempts := jd.attempts.getD 0
    max_retries := jd.max_retries.getD 3
    created_at := jd.created_at.getD now
    updated_at := jd.updated_at.getD now
    next_retry_at := jd.next_retry_at
    worker_id := jd.worker_id
    priority := jd.priority.getD 0
    run_at := jd.run_at
    timeout := jd.timeout
    last_output := jd.last_output
    duration_ms := jd.duration_ms }

/-- Model of `Storage.create_job`: INSERT; a primary-key collision raises
`IntegrityError`, which is caught and reported as `false` with the
transaction rolled back. -/
def create_job (db : DB) (jd : JobData) (now : Time) : Bool × DB :=
  if db.jobs.any (fun j => decide (j.id = jd.id)) then (false, db)
  else (true, { db with jobs := db.jobs ++ [rowOfJobData jd now] })

/-- Model of `Storage.get_job`: SELECT by primary key. -/
def get_job (db : DB) (jid : String) : Option Job :=
  db.jobs.find? (fun j => decide (j.id = jid))

/-- The field set passed to `Storage.update_job`; `none` means the key is not
in the dict, `some v` means the column is set to `v` (where `v` itself may be
NULL for nullable columns). -/
structure JobUpdates where
  state : Option String := none
  attempts : Option Nat := none
  worker_id : Option (Option String) := none
  next_retry_at : Option (Option Time) := none
  run_at : Option (Option Time) := none
  last_output : Option (Option String) := none
  duration_ms : Option (Option Int) := none
deriving DecidableEq

/-- Effect of `Storage.update_job`'s UPDATE on one row: apply the supplied
fields and always stamp `updated_at` from the clock. -/
def applyUpdates (u : JobUpdates) (now : Time) (j : Job) : Job :=
  { j with
    state := u.state.getD j.state
    attempts := u.attempts.getD j.attempts
    worker_id := u.worker_id.getD j.worker_id
    next_retry_at := u.next_retry_at.getD j.next_retry_at
    run_at := u.run_at.getD j.run_at
    last_output := u.last_output.getD j.last_output
    duration_ms := u.duration_ms.getD j.duration_ms
    updated_at := now }

/-- Model of `Storage.update_job`: UPDATE every row whose `id` matches. -/
def update_job (db : DB) (jid : String) (u : JobUpdates) (now : Time) : DB :=
  { db with jobs := db.jobs.map (fun j => if j.id = jid then applyUpdates u now j else j) }

/-- Model of `Storage.log_job_execution`: append one row to `job_logs`. -/
def log_job_execution (db : DB) (jid st : String) (success : Bool) (attempts : Nat)
    (duration_ms : Option Int) (output : Option String) (now : Time) : DB :=
  { db with logs := db.logs ++
      [{ job_id := jid
         state := st
         success := success
         attempts := attempts
         duration_ms := duration_ms
         output := output
         created_at := now }] }

/-! Ordering.  `ORDER BY priority DESC, run_at IS NOT NULL, run_at ASC, created_at ...`
is modelled by a lexicographic key: SQLite's `run_at IS NOT NULL` is 0 on NULL
and 1 otherwise, so with the default ascending direction the NULL-`run_at`
rows come first. -/

/-- Value of the SQL expression `run_at IS NOT NULL` for a row. -/
def runAtNullKey (j : Job) : Nat :=
  match j.run_at with
  | none => 0
  | some _ => 1

abbrev LeaseKey := Lex (Int × Lex (Nat × Lex (Nat × Nat)))

/-- Sort key of `Storage.get_pending_job`'s SELECT:
`priority DESC, run_at IS NOT NULL, run_at ASC, created_at ASC`. -/
def pendingKey (j : Job) : LeaseKey :=
  toLex (-j.priority, toLex (runAtNullKey j, toLex (j.run_at.getD 0, j.created_at)))

abbrev ListKey := Lex (Int × Lex (Nat × Lex (Nat × Int)))

/-- Sort key of `Storage.list_jobs`:
`priority DESC, run_at IS NOT NULL, run_at ASC, created_at DESC`. -/
def listKey (j : Job) : ListKey :=
  toLex (-j.priority, toLex (runAtNullKey j, toLex (j.run_at.getD 0, -(j.created_at : Int))))

abbrev RetryKey := Lex (Int × Nat)

/-- Sort key of `Storage.get_failed_job_ready_for_retry`'s SELECT:
`priority DESC, next_retry_at ASC` (the predicate makes `next_retry_at` non-null). -/
def retryKey (j : Job) : RetryKey :=
  toLex (-j.priority, j.next_retry_at.getD 0)

/-- Comparison relation of `list_jobs`' ORDER BY. -/
abbrev listLe (a b : Job) : Prop := listKey a ≤ listKey b

instance : DecidableRel listLe := fun a b => inferInstanceAs (Decidable (listKey a ≤ listKey b))

instance : IsTotal Job listLe := ⟨fun a b => le_total (listKey a) (listKey b)⟩

instance : IsTrans Job listLe := ⟨fun _ _ _ hab hbc => le_trans hab hbc⟩

/-- One comparison step of taking the ORDER BY minimum. -/
def pickStep {κ : Type} [LinearOrder κ] (key : Job → κ) (acc : Option Job) (j : Job) :
    Option Job :=
  match acc with
  | none => some j
  | some b => if key j < key b then some j else some b

/-- Result of `SELECT ... ORDER BY key LIMIT 1`: the first key-minimal row. -/
def pickBest {κ : Type} [LinearOrder κ] (key : Job → κ) (l : List Job) : Option Job :=
  l.foldl (pickStep key) none

/-- Model of `Storage.list_jobs`.  Python's `if state:` and `if limit:` are falsy on
`None`, on the empty string and on `0`. -/
def list_jobs (db : DB) (state : Option String) (limit : Option Nat) : List Job :=
  let rows := match state with
    | none => db.jobs
    | some s => if s = "" then db.jobs else db.jobs.filter (fun j => decide (j.state = s))
  let sorted := List.insertionSort listLe rows
  match limit with
  | none => sorted
  | some l => if l = 0 then sorted else sorted.take l

/-! Leasing. -/

/-- Value of `col IS NULL OR col <= now` for a nullable timestamp column. -/
def timeOk (o : Option Time) (now : Time) : Bool :=
  match o with
  | none => true
  | some t => decide (t ≤ now)

/-- WHERE clause of `Storage.get_pending_job`'s SELECT. -/
def pendingReady (now : Time) (j : Job) : Bool :=
  decide (j.state = statePending) && timeOk j.run_at now && timeOk j.next_retry_at now

/-- The row returned by `Storage.get_pending_job`'s SELECT. -/
def selectPendingCandidate (db : DB) (now : Time) : Option Job :=
  pickBest pendingKey (db.jobs.filter (pendingReady now))

/-- WHERE clause of `Storage.get_failed_job_ready_for_retry`'s SELECT:
`state = 'failed' AND next_retry_at IS NOT NULL AND next_retry_at <= now`. -/
def retryReady (now : Time) (j : Job) : Bool :=
  decide (j.state = stateFailed) &&
    (match j.next_retry_at with
     | none => false
     | some t => decide (t ≤ now))

/-- The row returned by `Storage.get_failed_job_ready_for_retry`'s SELECT. -/
def selectRetryCandidate (db : DB) (now : Time) : Option Job :=
  pickBest retryKey (db.jobs.filter (retryReady now))

/-- Effect of `Storage._lock_job`'s conditional UPDATE on one row. -/
def lockRow (jid cur w : String) (now : Time) (j : Job) : Job :=
  if j.id = jid ∧ j.state = cur then
    { j with state := stateProcessing, worker_id := some w, updated_at := now }
  else j

/-- Model of `Storage._lock_job`: `UPDATE ... SET state='processing', worker_id, updated_at
WHERE id = ? AND state = ?`; when `rowcount > 0` the row is re-read and
returned, otherwise `None`. -/
def lock_job (db : DB) (jid cur w : String) (now : Time) : Option Job × DB :=
  if db.jobs.any (fun j => decide (j.id = jid ∧ j.state = cur)) then
    let jobs2 := db.jobs.map (lockRow jid cur w now)
    (jobs2.find? (fun j => decide (j.id = jid)), { db with jobs := jobs2 })
  else (none, db)

/-- Model of `Storage.get_pending_job`: SELECT the top ready pending row, then CAS it to
`processing`.  `interf` is the interference of racing workers between the
SELECT and the UPDATE (identity when the call runs without contention).  On a
failed CAS the code returns `None` without another attempt. -/
def get_pending_job (db : DB) (interf : DB → DB) (w : String) (now : Time) :
    Option Job × DB :=
  match selectPendingCandidate db now with
  | none => (none, db)
  | some cand =>
    let db2 := interf db
    match lock_job db2 cand.id statePending w now with
    | (some j, db3) => (some j, db3)
    | (none, db3) => (none, db3)

/-- Model of `Storage.get_failed_job_ready_for_retry`: same select-then-CAS shape over
the failed-retry predicate. -/
def get_failed_job_ready_for_retry (db : DB) (interf : DB → DB) (w : String) (now : Time) :
    Option Job × DB :=
  match selectRetryCandidate db now with
  | none => (none, db)
  | some cand =>
    let db2 := interf db
    match lock_job db2 cand.id stateFailed w now with
    | (some j, db3) => (some j, db3)
    | (none, db3) => (none, db3)

/-- Modelled from the spec: the pending lease as the spec's words describe it
("If the CAS affected zero rows (another worker won the race), retry the
select-CAS at most once, then return null") — after a failed CAS it performs
one more select-then-CAS round before giving up.  This definition exists only
to compare the spec's description with `get_pending_job` above. -/
def get_pending_job_specRetry (db : DB) (interf : DB → DB) (w : String) (now : Time) :
    Option Job × DB :=
  match selectPendingCandidate db now with
  | none => (none, db)
  | some cand =>
    let db2 := interf db
    match lock_job db2 cand.id statePending w now with
    | (some j, db3) => (some j, db3)
    | (none, _) =>
      match selectPendingCandidate db2 now with
      | none => (none, db2)
      | some cand2 =>
        match lock_job db2 cand2.id statePending w now with
        | (some j, db3) => (some j, db3)
        | (none, db3) => (none, db3)

/-! Clock & backoff (utils.py) and the job manager (job_manager.py). -/

/-- Model of `calculate_next_retry_time`: `now + backoff_base ** attempts` seconds,
exact exponential backoff with no jitter. -/
def calculate_next_retry_time (attempts : Nat) (backoff_base : Nat) (now : Time) : Time :=
  now + backoff_base ^ attempts

def VALID_STATES : List String :=
  [statePending, stateProcessing, stateCompleted, stateFailed, stateDead]

/-- Combined output persisted by `mark_failed`: `output or ''`, then
`f"{combined}\n{error}".strip()` when `error_message` is truthy. -/
def combinedOutput (output : Option String) (errMsg : Option String) : String :=
  let base := match output with
    | none => ""
    | some s => s
  match errMsg with
  | none => base
  | some e => if e = "" then base else (base ++ "\n" ++ e).trim

/-- Model of `JobManager.enqueue`: fill defaults, validate, delegate to `create_job`.
The coercion failures of Python's `int(...)` are outside the typed model; the
`timeout > 0` and `state ∈ VALID_STATES` validations are modelled.  The `ok`
payload carries the new database and `storage.get_job(id)`. -/
def enqueue (db : DB) (jd : JobData) (cfg : Config) (now : Time) :
    Except String (DB × Option Job) :=
  let timeoutV := jd.timeout.getD cfg.default_timeout
  let st := jd.state.getD statePending
  if timeoutV ≤ 0 then Except.error errTimeout
  else if ¬ st ∈ VALID_STATES then Except.error errState
  else
    let jd2 : JobData :=
      { jd with
        state := some st
        attempts := some (jd.attempts.getD 0)
        max_retries := some (jd.max_retries.getD cfg.max_retries)
        created_at := some (jd.created_at.getD now)
        updated_at := some (jd.updated_at.getD now)
        priority := some (jd.priority.getD cfg.default_priority)
        timeout := some timeoutV }
    match create_job db jd2 now with
    | (false, _) => Except.error errDup
    | (true, db2) => Except.ok (db2, get_job db2 jd.id)
where
  errTimeout : String := "timeout must be greater than zero"
  errState : String := "Invalid state"
  errDup : String := "Job already exists"

/-- The field dict `mark_completed` passes to `update_job`. -/
def completedUpdates (output : Option String) (duration_ms : Option Int) : JobUpdates :=
  { state := some stateCompleted
    worker_id := some none
    next_retry_at := some none
    last_output := some output
    duration_ms := some duration_ms
    run_at := some none }

/-- The field dict `mark_failed`'s dead branch passes to `update_job`. -/
def deadUpdates (attempts : Nat) (co : String) (duration_ms : Option Int) : JobUpdates :=
  { state := some stateDead
    attempts := some attempts
    worker_id := some none
    next_retry_at := some none
    last_output := some (some co)
    duration_ms := some duration_ms
    run_at := some none }

/-- The field dict `mark_failed`'s retry branch passes to `update_job`. -/
def failedUpdates (attempts : Nat) (nra : Time) (co : String) (duration_ms : Option Int) :
    JobUpdates :=
  { state := some stateFailed
    attempts := some attempts
    next_retry_at := some (some nra)
    worker_id := some none
    last_output := some (some co)
    duration_ms := some duration_ms }

/-- The field dict `retry_dead_job` passes to `update_job`. -/
def retryResetUpdates : JobUpdates :=
  { state := some statePending
    attempts := some 0
    next_retry_at := some none
    worker_id := some none
    run_at := some none }

/-- Model of `JobManager.mark_completed`: set `completed`, clear `worker_id`,
`next_retry_at` and `run_at`, record telemetry, append a success log row. -/
def mark_completed (db : DB) (job : Job) (output : Option String)
    (duration_ms : Option Int) (now : Time) : DB :=
  let db2 := update_job db job.id (completedUpdates output duration_ms) now
  log_job_execution db2 job.id stateCompleted true job.attempts duration_ms output now

/-- Model of `JobManager.mark_failed`: increment attempts; at or above `max_retries`
transition to `dead` (returning `false`), otherwise to `failed` with a fresh
`next_retry_at` (returning `true`); either way append one log row.  The
`worker_id` argument is unused by the source body and omitted here. -/
def mark_failed (db : DB) (job : Job) (output : Option String)
    (duration_ms : Option Int) (errMsg : Option String) (cfg : Config) (now : Time) :
    Bool × DB :=
  let attempts := job.attempts + 1
  let co := combinedOutput output errMsg
  if job.max_retries ≤ attempts then
    let db2 := update_job db job.id (deadUpdates attempts co duration_ms) now
    (false, log_job_execution db2 job.id stateDead false attempts duration_ms (some co) now)
  else
    let nra := calculate_next_retry_time attempts cfg.backoff_base now
    let db2 := update_job db job.id (failedUpdates attempts nra co duration_ms) now
    (true, log_job_execution db2 job.id stateFailed false attempts duration_ms (some co) now)

/-- Model of `JobManager.retry_dead_job`: read the job; only when it exists in state
`dead`, reset it to a fresh pending job and return `true`. -/
def retry_dead_job (db : DB) (jid : String) (now : Time) : Bool × DB :=
  match get_job db jid with
  | none => (false, db)
  | some j =>
    if j.state = stateDead then
      (true, update_job db jid retryResetUpdates now)
    else (false, db)

/-! Propositional reading of the lease predicates, and the worker-id/state
invariant of the data model. -/

/-- Propositional reading of `get_pending_job`'s WHERE clause: `state='pending'
AND (run_at IS NULL OR run_at <= now) AND (next_retry_at IS NULL OR
next_retry_at <= now)`. -/
def pendingEligible (j : Job) (now : Time) : Prop :=
  j.state = statePending ∧
    (j.run_at = none ∨ ∃ t, j.run_at = some t ∧ t ≤ now) ∧
    (j.next_retry_at = none ∨ ∃ t, j.next_retry_at = some t ∧ t ≤ now)

/-- Propositional reading of `get_failed_job_ready_for_retry`'s WHERE clause. -/
def retryEligible (j : Job) (now : Time) : Prop :=
  j.state = stateFailed ∧ ∃ t, j.next_retry_at = some t ∧ t ≤ now

/-- Worker-id consistency for one row: `processing` rows carry a worker id,
all other rows carry none. -/
def workerInv (j : Job) : Prop :=
  (j.state = stateProcessing → j.worker_id ≠ none) ∧
    (j.state ≠ stateProcessing → j.worker_id = none)

/-- Worker-id consistency for a whole database. -/
def dbWorkerInv (db : DB) : Prop :=
  ∀ j ∈ db.jobs, workerInv j

/-- The condition on a submitted job dict under which `enqueue` inserts a
worker-id-consistent row: the (defaulted) state and the supplied `worker_id`
agree with `workerInv`. -/
def consistentJobData (jd : JobData) : Prop :=
  (jd.state.getD statePending = stateProcessing → jd.worker_id ≠ none) ∧
    (jd.state.getD statePending ≠ stateProcessing → jd.worker_id = none)

/-! Fixture data for witnesses and counterexamples. -/

/-- Configuration with the source defaults. -/
def cfg0 : Config :=
  { max_retries := 3, backoff_base := 2, default_priority := 0, default_timeout := 3600 }

/-- A plain pending job. -/
def jobP : Job :=
  { id := "p", command := "c", state := statePending, attempts := 0, max_retries := 3,
    created_at := 1, updated_at := 1, next_retry_at := none, worker_id := none,
    priority := 0, run_at := none, timeout := some 3600, last_output := none,
    duration_ms := none }

/-- An equal-priority pending job with a non-null, already-elapsed `run_at`. -/
def jobT : Job := { jobP with id := "t", created_at := 2, run_at := some 5 }

/-- A failed job whose retry delay has elapsed. -/
def jobF : Job :=
  { jobP with
    id := "f", state := stateFailed, attempts := 1,
    next_retry_at := some 5, worker_id := none }

/-- A dead job. -/
def jobD : Job := { jobP with id := "d", state := stateDead, attempts := 3 }

/-- Database with a null-`run_at` and a timed pending job. -/
def dbNT : DB := { jobs := [jobP, jobT], logs := [] }

/-- Database with one elapsed failed job. -/
def dbF : DB := { jobs := [jobF], logs := [] }

/-- Database with one dead job. -/
def dbD : DB := { jobs := [jobD], logs := [] }

/-- A higher-priority pending job, used to stage a lost lease race. -/
def jobHi : Job := { jobP with id := "hi", priority := 10 }

/-- Database where `hi` outranks `p`. -/
def dbRace : DB := { jobs := [jobHi, jobP], logs := [] }

/-- Interference of a racing worker that grabs `hi` between the SELECT and the
CAS. -/
def grabHi : DB → DB := fun d =>
  { d with jobs := d.jobs.map (fun j =>
      if j.id = "hi" then { j with state := stateProcessing, worker_id := some "other" }
      else j) }

/-- A fresh job dict carrying only the required fields. -/
def jdP : JobData := { id := "p", command := "c" }

/-- A job dict that supplies its own `state` field. -/
def jdProc : JobData := { id := "x", command := "c", state := some stateProcessing }

/-- The empty database. -/
def dbEmpty : DB := { jobs := [], logs := [] }

/-- The row `enqueue dbEmpty jdProc cfg0 5` inserts. -/
def jX : Job :=
  { id := "x", command := "c", state := stateProcessing, attempts := 0, max_retries := 3,
    created_at := 5, updated_at := 5, next_retry_at := none, worker_id := none,
    priority := 0, run_at := none, timeout := some 3600, last_output := none,
    duration_ms := none }

/-- A pending job whose `max_retries` is zero. -/
def jobZ : Job := { jobP with id := "z", max_retries := 0 }

/-- Database with only the zero-`max_retries` job. -/
def dbZ : DB := { jobs := [jobZ], logs := [] }

/-- The row `enqueue` inserts on success: `rowOfJobData` applied to the job
dict after `enqueue`'s `setdefault` filling. -/
def enqueueRow (jd : JobData) (cfg : Config) (now : Time) : Job :=
  { id := jd.id
    command := jd.command
    state := jd.state.getD statePending
    attempts := jd.attempts.getD 0
    max_retries := jd.max_retries.getD cfg.max_retries
    created_at := jd.created_at.getD now
    updated_at := jd.updated_at.getD now
    next_retry_at := jd.next_retry_at
    worker_id := jd.worker_id
    priority := jd.priority.getD cfg.default_priority
    run_at := jd.run_at
    timeout := some (jd.timeout.getD cfg.default_timeout)
    last_output := jd.last_output
    duration_ms := jd.duration_ms }

/-! Auxiliary lemmas. -/

theorem timeOk_iff (o : Option Time) (now : Time) :
    timeOk o now = true ↔ (o = none ∨ ∃ t, o = some t ∧ t ≤ now) := by
  cases o <;> simp [timeOk]

theorem pendingReady_iff (now : Time) (j : Job) :
    pendingReady now j = true ↔ pendingEligible j now := by
  simp [pendingReady, pendingEligible, Bool.and_eq_true, decide_eq_true_iff, timeOk_iff,
    and_assoc]

theorem retryReady_iff (now : Time) (j : Job) :
    retryReady now j = true ↔ retryEligible j now := by
  cases hn : j.next_retry_at with
  | none => simp [retryReady, retryEligible, hn]
  | some t =>
    simp [retryReady, retryEligible, hn, Bool.and_eq_true, decide_eq_true_iff]

theorem foldl_pickStep_spec {κ : Type} [LinearOrder κ] (key : Job → κ) :
    ∀ (l : List Job) (b c : Job),
      l.foldl (pickStep key) (some b) = some c →
      (c = b ∨ c ∈ l) ∧ key c ≤ key b ∧ ∀ j ∈ l, key c ≤ key j := by
  intro l
  induction l with
  | nil =>
    intro b c h
    simp only [List.foldl_nil, Option.some.injEq] at h
    subst h
    exact ⟨Or.inl rfl, le_refl _, by simp⟩
  | cons j rest ih =>
    intro b c h
    simp only [List.foldl_cons] at h
    by_cases hjb : key j < key b
    · have h' : rest.foldl (pickStep key) (some j) = some c := by
        simpa [pickStep, hjb] using h
      obtain ⟨hmem, hle, hmin⟩ := ih j c h'
      refine ⟨?_, le_trans hle (le_of_lt hjb), ?_⟩
      · rcases hmem with e | m
        · exact Or.inr (by simp [e])
        · exact Or.inr (List.mem_cons_of_mem _ m)
      · intro x hx
        rcases List.mem_cons.mp hx with e | m
        · subst e; exact hle
        · exact hmin x m
    · have h' : rest.foldl (pickStep key) (some b) = some c := by
        simpa [pickStep, hjb] using h
      obtain ⟨hmem, hle, hmin⟩ := ih b c h'
      refine ⟨?_, hle, ?_⟩
      · rcases hmem with e | m
        · exact Or.inl e
        · exact Or.inr (List.mem_cons_of_mem _ m)
      · intro x hx
        rcases List.mem_cons.mp hx with e | m
        · subst e; exact le_trans hle (not_lt.mp hjb)
        · exact hmin x m

theorem pickBest_spec {κ : Type} [LinearOrder κ] (key : Job → κ) (l : List Job) (c : Job)
    (h : pickBest key l = some c) : c ∈ l ∧ ∀ j ∈ l, key c ≤ key j := by
  cases l with
  | nil => simp [pickBest] at h
  | cons j rest =>
    have h' : rest.foldl (pickStep key) (some j) = some c := by
      simpa [pickBest, pickStep] using h
    obtain ⟨hmem, hle, hmin⟩ := foldl_pickStep_spec key rest j c h'
    refine ⟨?_, ?_⟩
    · rcases hmem with e | m
      · simp [e]
      · exact List.mem_cons_of_mem _ m
    · intro x hx
      rcases List.mem_cons.mp hx with e | m
      · subst e; exact hle
      · exact hmin x m

theorem selectPendingCandidate_spec (db : DB) (now : Time) (cand : Job)
    (h : selectPendingCandidate db now = some cand) :
    cand ∈ db.jobs ∧ pendingEligible cand now ∧
      ∀ j ∈ db.jobs, pendingEligible j now → pendingKey cand ≤ pendingKey j := by
  obtain ⟨hmem, hmin⟩ := pickBest_spec pendingKey _ cand h
  have h1 := List.mem_filter.mp hmem
  refine ⟨h1.1, (pendingReady_iff now cand).mp h1.2, fun j hj hel => ?_⟩
  exact hmin j (List.mem_filter.mpr ⟨hj, (pendingReady_iff now j).mpr hel⟩)

theorem selectPendingCandidate_none (db : DB) (now : Time)
    (h : ∀ j ∈ db.jobs, ¬ pendingEligible j now) :
    selectPendingCandidate db now = none := by
  have hf : db.jobs.filter (pendingReady now) = [] := by
    apply List.filter_eq_nil_iff.mpr
    intro j hj hr
    exact h j hj ((pendingReady_iff now j).mp hr)
  simp [selectPendingCandidate, hf, pickBest]

theorem selectRetryCandidate_spec (db : DB) (now : Time) (cand : Job)
    (h : selectRetryCandidate db now = some cand) :
    cand ∈ db.jobs ∧ retryEligible cand now ∧
      ∀ j ∈ db.jobs, retryEligible j now → retryKey cand ≤ retryKey j := by
  obtain ⟨hmem, hmin⟩ := pickBest_spec retryKey _ cand h
  have h1 := List.mem_filter.mp hmem
  refine ⟨h1.1, (retryReady_iff now cand).mp h1.2, fun j hj hel => ?_⟩
  exact hmin j (List.mem_filter.mpr ⟨hj, (retryReady_iff now j).mpr hel⟩)

theorem find?_map_lockRow (cur w : String) (now : Time) :
    ∀ (jobs : List Job) (cand : Job),
      (jobs.map Job.id).Nodup → cand ∈ jobs → cand.state = cur →
      (jobs.map (lockRow cand.id cur w now)).find? (fun j => decide (j.id = cand.id)) =
        some { cand with state := stateProcessing, worker_id := some w, updated_at := now } := by
  intro jobs
  induction jobs with
  | nil => intro cand _ hmem _; simp at hmem
  | cons a rest ih =>
    intro cand hnd hmem hst
    rw [List.map_cons, List.nodup_cons] at hnd
    by_cases hid : a.id = cand.id
    · have hca : cand = a := by
        rcases List.mem_cons.mp hmem with e | m
        · exact e
        · exact absurd (hid ▸ List.mem_map_of_mem Job.id m) hnd.1
      subst hca
      rw [List.map_cons, List.find?_cons_of_pos _ (by simp [lockRow, hst])]
      simp [lockRow, hst]
    · have hmem' : cand ∈ rest := by
        rcases List.mem_cons.mp hmem with e | m
        · exact absurd (by rw [e]) hid
        · exact m
      rw [List.map_cons, List.find?_cons_of_neg _ (by simp [lockRow, hid])]
      exact ih cand hnd.2 hmem' hst

theorem lock_job_found (db : DB) (cand : Job) (cur w : String) (now : Time)
    (hnd : (db.jobs.map Job.id).Nodup) (hmem : cand ∈ db.jobs) (hst : cand.state = cur) :
    lock_job db cand.id cur w now =
      (some { cand with state := stateProcessing, worker_id := some w, updated_at := now },
        { db with jobs := db.jobs.map (lockRow cand.id cur w now) }) := by
  have hany : db.jobs.any (fun j => decide (j.id = cand.id ∧ j.state = cur)) = true := by
    refine List.any_eq_true.mpr ⟨cand, hmem, ?_⟩
    simp [hst]
  simp [lock_job, hany, find?_map_lockRow cur w now db.jobs cand hnd hmem hst]
  exact ⟨cand, hmem, rfl, hst⟩

/-! Evaluation equations for the two lease operations. -/

theorem get_pending_job_select_none (db : DB) (interf : DB → DB) (w : String) (now : Time)
    (h : selectPendingCandidate db now = none) :
    get_pending_job db interf w now = (none, db) := by
  unfold get_pending_job
  rw [h]

theorem get_failed_job_select_none (db : DB) (interf : DB → DB) (w : String) (now : Time)
    (h : selectRetryCandidate db now = none) :
    get_failed_job_ready_for_retry db interf w now = (none, db) := by
  unfold get_failed_job_ready_for_retry
  rw [h]

theorem get_pending_job_locked (db : DB) (w : String) (now : Time) (cand : Job)
    (hnd : (db.jobs.map Job.id).Nodup)
    (hsel : selectPendingCandidate db now = some cand) :
    get_pending_job db (fun d => d) w now =
      (some { cand with state := stateProcessing, worker_id := some w, updated_at := now },
        { db with jobs := db.jobs.map (lockRow cand.id statePending w now) }) := by
  obtain ⟨hmem, hel, _⟩ := selectPendingCandidate_spec db now cand hsel
  unfold get_pending_job
  rw [hsel]
  simp only [lock_job_found db cand statePending w now hnd hmem hel.1]

theorem get_failed_job_locked (db : DB) (w : String) (now : Time) (cand : Job)
    (hnd : (db.jobs.map Job.id).Nodup)
    (hsel : selectRetryCandidate db now = some cand) :
    get_failed_job_ready_for_retry db (fun d => d) w now =
      (some { cand with state := stateProcessing, worker_id := some w, updated_at := now },
        { db with jobs := db.jobs.map (lockRow cand.id stateFailed w now) }) := by
  obtain ⟨hmem, hel, _⟩ := selectRetryCandidate_spec db now cand hsel
  unfold get_failed_job_ready_for_retry
  rw [hsel]
  simp only [lock_job_found db cand stateFailed w now hnd hmem hel.1]

/-- C1: the pending lease returns a row only if that row was a ready pending
job before the call; the returned row is that job moved to `processing` with
the worker id and `updated_at` stamped; with no eligible job the call returns
null and leaves the database unchanged. -/
theorem pending_lease_contract (db : DB) (w : String) (now : Time)
    (hnd : (db.jobs.map Job.id).Nodup) :
    (∀ j, (get_pending_job db (fun d => d) w now).1 = some j →
      ∃ j0, j0 ∈ db.jobs ∧ pendingEligible j0 now ∧
        j = { j0 with state := stateProcessing, worker_id := some w, updated_at := now }) ∧
    ((∀ j0 ∈ db.jobs, ¬ pendingEligible j0 now) →
      get_pending_job db (fun d => d) w now = (none, db)) := by
  constructor
  · intro j hj
    cases hsel : selectPendingCandidate db now with
    | none =>
      rw [get_pending_job_select_none db _ w now hsel] at hj
      exact absurd hj (by simp)
    | some cand =>
      obtain ⟨hmem, hel, _⟩ := selectPendingCandidate_spec db now cand hsel
      rw [get_pending_job_locked db w now cand hnd hsel] at hj
      refine ⟨cand, hmem, hel, ?_⟩
      exact (Option.some.injEq _ _ ▸ hj).symm ▸ rfl
  · intro hnone
    exact get_pending_job_select_none db _ w now (selectPendingCandidate_none db now hnone)

/-- C1 witness: on a two-job database the lease returns the locked copy of an
eligible pending row. -/
theorem pending_lease_contract_witness :
    ∃ j0, j0 ∈ dbNT.jobs ∧ pendingEligible j0 10 ∧
      ({ jobP with state := stateProcessing, worker_id := some "w", updated_at := 10 } : Job) =
        { j0 with state := stateProcessing, worker_id := some "w", updated_at := 10 } :=
  (pending_lease_contract dbNT "w" 10 (by decide)).1
    { jobP with state := stateProcessing, worker_id := some "w", updated_at := 10 } (by rfl)

/-- C2 counterexample: with two pending jobs and a racing worker that grabs
the top-ranked one between the SELECT and the CAS, the implementation returns
null, while the spec's retry-once description would lease the remaining job.
The implementation therefore does not retry the select-CAS after a failed
CAS. -/
theorem lease_no_retry_counterexample :
    (get_pending_job dbRace grabHi "w" 10).1 = none ∧
      ((get_pending_job_specRetry dbRace grabHi "w" 10).1).map Job.id = some "p" := by
  exact ⟨rfl, rfl⟩

/-- C2 amended: in both lease operations, when the compare-and-swap affects
zero rows (the selected candidate's state changed concurrently), the
operation returns null immediately, with no second select-CAS round. -/
theorem lease_cas_fail_returns_null (db : DB) (interf : DB → DB) (w : String) (now : Time) :
    (∀ cand, selectPendingCandidate db now = some cand →
      (lock_job (interf db) cand.id statePending w now).1 = none →
      (get_pending_job db interf w now).1 = none) ∧
    (∀ cand, selectRetryCandidate db now = some cand →
      (lock_job (interf db) cand.id stateFailed w now).1 = none →
      (get_failed_job_ready_for_retry db interf w now).1 = none) := by
  constructor
  · intro cand hsel hfail
    unfold get_pending_job
    rw [hsel]
    simp only
    cases hl : lock_job (interf db) cand.id statePending w now with
    | mk o db3 =>
      rw [hl] at hfail
      cases o with
      | none => simp
      | some j => exact absurd hfail (by simp)
  · intro cand hsel hfail
    unfold get_failed_job_ready_for_retry
    rw [hsel]
    simp only
    cases hl : lock_job (interf db) cand.id stateFailed w now with
    | mk o db3 =>
      rw [hl] at hfail
      cases o with
      | none => simp
      | some j => exact absurd hfail (by simp)

/-- C2 witness: the staged race instantiates the amended no-retry behaviour. -/
theorem lease_cas_fail_returns_null_witness :
    (get_pending_job dbRace grabHi "w" 10).1 = none :=
  (lease_cas_fail_returns_null dbRace grabHi "w" 10).1 jobHi (by rfl) (by rfl)

/-! Worker-id invariant machinery. -/

theorem workerInv_of_fields (j : Job) (hs : j.state ≠ stateProcessing)
    (hw : j.worker_id = none) : workerInv j :=
  ⟨fun h => absurd h hs, fun _ => hw⟩

theorem workerInv_lockRow (jid cur w : String) (now : Time) (j : Job)
    (h : workerInv j) : workerInv (lockRow jid cur w now j) := by
  unfold lockRow
  split
  · exact ⟨fun _ => by simp, fun hc => absurd rfl hc⟩
  · exact h

theorem dbWorkerInv_lock (db : DB) (jid cur w : String) (now : Time)
    (hdb : dbWorkerInv db) : dbWorkerInv (lock_job db jid cur w now).2 := by
  unfold lock_job
  split
  · intro j hj
    rcases List.mem_map.mp hj with ⟨a, ha, rfl⟩
    exact workerInv_lockRow jid cur w now a (hdb a ha)
  · exact hdb

theorem update_job_rows (db : DB) (jid : String) (u : JobUpdates) (now : Time) :
    ∀ j' ∈ (update_job db jid u now).jobs,
      (j'.id = jid → ∃ a, a ∈ db.jobs ∧ a.id = jid ∧ j' = applyUpdates u now a) ∧
      (j' ∈ db.jobs ∨ ∃ a, a ∈ db.jobs ∧ j' = applyUpdates u now a) := by
  intro j' hj'
  rcases List.mem_map.mp hj' with ⟨a, ha, rfl⟩
  by_cases h : a.id = jid
  · constructor
    · intro _
      exact ⟨a, ha, h, by simp [h]⟩
    · exact Or.inr ⟨a, ha, by simp [h]⟩
  · constructor
    · intro hid
      rw [if_neg h] at hid ⊢
      exact absurd hid h
    · exact Or.inl (by simp [h, ha])

theorem dbWorkerInv_update (db : DB) (jid : String) (u : JobUpdates) (now : Time)
    (hdb : dbWorkerInv db)
    (hu : ∀ a, workerInv a → workerInv (applyUpdates u now a)) :
    dbWorkerInv (update_job db jid u now) := by
  intro j hj
  rcases List.mem_map.mp hj with ⟨a, ha, rfl⟩
  by_cases h : a.id = jid
  · rw [if_pos h]
    exact hu a (hdb a ha)
  · rw [if_neg h]
    exact hdb a ha

theorem workerInv_applyUpdates (u : JobUpdates) (now : Time) (a : Job) (s : String)
    (hs : u.state = some s) (h1 : ¬ s = stateProcessing) (hw : u.worker_id = some none) :
    workerInv (applyUpdates u now a) := by
  have hstate : (applyUpdates u now a).state = s := by simp [applyUpdates, hs]
  have hwid : (applyUpdates u now a).worker_id = none := by simp [applyUpdates, hw]
  exact workerInv_of_fields _ (by rw [hstate]; exact h1) hwid

theorem update_job_mem (db : DB) (jid : String) (u : JobUpdates) (now : Time) (a : Job)
    (ha : a ∈ db.jobs) (hid : a.id = jid) :
    applyUpdates u now a ∈ (update_job db jid u now).jobs := by
  have he : applyUpdates u now a =
      (fun j => if j.id = jid then applyUpdates u now j else j) a := by
    simp [hid]
  rw [he]
  exact List.mem_map_of_mem _ ha

theorem enqueue_ok_shape (db : DB) (jd : JobData) (cfg : Config) (now : Time)
    (db2 : DB) (oj : Option Job) (h : enqueue db jd cfg now = Except.ok (db2, oj)) :
    db2 = { db with jobs := db.jobs ++ [enqueueRow jd cfg now] } ∧
      (∀ j ∈ db.jobs, ¬ j.id = jd.id) := by
  by_cases h1 : jd.timeout.getD cfg.default_timeout ≤ 0
  · simp only [enqueue, if_pos h1] at h
    exact absurd h (by simp)
  · by_cases h2 : ¬ jd.state.getD statePending ∈ VALID_STATES
    · simp only [enqueue, if_neg h1, if_pos h2] at h
      exact absurd h (by simp)
    · by_cases h3 : db.jobs.any (fun j => decide (j.id = jd.id)) = true
      · simp only [enqueue, if_neg h1, if_neg h2, create_job] at h
        rw [if_pos (by simpa using h3)] at h
        exact absurd h (by simp)
      · simp only [enqueue, if_neg h1, if_neg h2, create_job] at h
        rw [if_neg (by simpa using h3)] at h
        simp only [Except.ok.injEq, Prod.mk.injEq] at h
        refine ⟨h.1.symm, ?_⟩
        intro j hj hid
        exact h3 (List.any_eq_true.mpr ⟨j, hj, by simp [hid]⟩)

theorem get_pending_job_snd_eq (db : DB) (interf : DB → DB) (w : String) (now : Time)
    (cand : Job) (hsel : selectPendingCandidate db now = some cand) :
    (get_pending_job db interf w now).2 =
      (lock_job (interf db) cand.id statePending w now).2 := by
  unfold get_pending_job
  rw [hsel]
  simp only
  cases hl : lock_job (interf db) cand.id statePending w now with
  | mk o db3 => cases o <;> rfl

theorem get_failed_job_snd_eq (db : DB) (interf : DB → DB) (w : String) (now : Time)
    (cand : Job) (hsel : selectRetryCandidate db now = some cand) :
    (get_failed_job_ready_for_retry db interf w now).2 =
      (lock_job (interf db) cand.id stateFailed w now).2 := by
  unfold get_failed_job_ready_for_retry
  rw [hsel]
  simp only
  cases hl : lock_job (interf db) cand.id stateFailed w now with
  | mk o db3 => cases o <;> rfl

/-- C3 counterexample: `enqueue` accepts a job dict that supplies
`state='processing'` while defaulting `worker_id` to null, committing a row
that violates the worker-id invariant. -/
theorem enqueue_breaks_worker_invariant_counterexample :
    enqueue dbEmpty jdProc cfg0 5 =
        Except.ok ({ jobs := [jX], logs := [] }, some jX) ∧
      jX.state = stateProcessing ∧ jX.worker_id = none ∧ ¬ workerInv jX := by
  refine ⟨by rfl, rfl, rfl, ?_⟩
  intro hinv
  exact (hinv.1 rfl) rfl

/-- C3 amended: every operation preserves the worker-id invariant
(`processing` ⇒ non-null `worker_id`, any other state ⇒ null `worker_id`),
with the proviso forced by the counterexample: for `enqueue` the supplied job
dict's (defaulted) `state` and `worker_id` must themselves respect the
invariant — which holds in particular whenever the dict supplies neither
field. -/
theorem worker_invariant_preserved (db : DB) (hdb : dbWorkerInv db) :
    (∀ jd cfg now db2 oj, consistentJobData jd →
      enqueue db jd cfg now = Except.ok (db2, oj) → dbWorkerInv db2) ∧
    (∀ w now, dbWorkerInv (get_pending_job db (fun d => d) w now).2) ∧
    (∀ w now, dbWorkerInv (get_failed_job_ready_for_retry db (fun d => d) w now).2) ∧
    (∀ job out dur now, dbWorkerInv (mark_completed db job out dur now)) ∧
    (∀ job out dur err cfg now, dbWorkerInv (mark_failed db job out dur err cfg now).2) ∧
    (∀ jid now, dbWorkerInv (retry_dead_job db jid now).2) := by
  refine ⟨?_, ?_, ?_, ?_, ?_, ?_⟩
  · intro jd cfg now db2 oj hcons henq
    obtain ⟨hshape, _⟩ := enqueue_ok_shape db jd cfg now db2 oj henq
    rw [hshape]
    intro j hj
    rcases List.mem_append.mp hj with hm | hm
    · exact hdb j hm
    · rw [List.mem_singleton.mp hm]
      exact hcons
  · intro w now
    cases hsel : selectPendingCandidate db now with
    | none =>
      rw [get_pending_job_select_none db _ w now hsel]
      exact hdb
    | some cand =>
      rw [get_pending_job_snd_eq db _ w now cand hsel]
      exact dbWorkerInv_lock db cand.id statePending w now hdb
  · intro w now
    cases hsel : selectRetryCandidate db now with
    | none =>
      rw [get_failed_job_select_none db _ w now hsel]
      exact hdb
    | some cand =>
      rw [get_failed_job_snd_eq db _ w now cand hsel]
      exact dbWorkerInv_lock db cand.id stateFailed w now hdb
  · intro job out dur now
    refine dbWorkerInv_update db job.id _ now hdb ?_
    intro a _
    exact workerInv_applyUpdates _ now a stateCompleted rfl (by decide) rfl
  · intro job out dur err cfg now
    by_cases hm : job.max_retries ≤ job.attempts + 1
    · simp only [mark_failed, if_pos hm]
      refine dbWorkerInv_update db job.id _ now hdb ?_
      intro a _
      exact workerInv_applyUpdates _ now a stateDead rfl (by decide) rfl
    · simp only [mark_failed, if_neg hm]
      refine dbWorkerInv_update db job.id _ now hdb ?_
      intro a _
      exact workerInv_applyUpdates _ now a stateFailed rfl (by decide) rfl
  · intro jid now
    unfold retry_dead_job
    cases hg : get_job db jid with
    | none => exact hdb
    | some j =>
      simp only
      by_cases hd : j.state = stateDead
      · rw [if_pos hd]
        refine dbWorkerInv_update db jid _ now hdb ?_
        intro a _
        exact workerInv_applyUpdates _ now a statePending rfl (by decide) rfl
      · rw [if_neg hd]
        exact hdb

/-- C3 witness: the invariant-preservation theorem applied to a concrete
invariant-respecting database. -/
theorem worker_invariant_preserved_witness :
    dbWorkerInv (mark_completed dbNT jobP none none 9) :=
  (worker_invariant_preserved dbNT (by unfold dbWorkerInv workerInv; decide)).2.2.2.1
    jobP none none 9

/-- C4: `mark_failed` increments attempts; at or above the limit it moves the
job to `dead` with `worker_id`, `next_retry_at` and `run_at` cleared, appends
one `dead` log row with the post-increment attempts, and returns false; below
the limit it moves the job to `failed` with `next_retry_at` from the backoff
clock and `worker_id` cleared, appends one `failed` log row, and returns
true. -/
theorem mark_failed_contract (db : DB) (job : Job) (out : Option String) (dur : Option Int)
    (err : Option String) (cfg : Config) (now : Time) :
    (job.max_retries ≤ job.attempts + 1 →
      (mark_failed db job out dur err cfg now).1 = false ∧
      (mark_failed db job out dur err cfg now).2.logs = db.logs ++
        [{ job_id := job.id, state := stateDead, success := false,
           attempts := job.attempts + 1, duration_ms := dur,
           output := some (combinedOutput out err), created_at := now }] ∧
      (job ∈ db.jobs → ∃ j', j' ∈ (mark_failed db job out dur err cfg now).2.jobs ∧
        j'.id = job.id ∧ j'.state = stateDead ∧ j'.attempts = job.attempts + 1 ∧
        j'.worker_id = none ∧ j'.next_retry_at = none ∧ j'.run_at = none ∧
        j'.updated_at = now)) ∧
    (job.attempts + 1 < job.max_retries →
      (mark_failed db job out dur err cfg now).1 = true ∧
      (mark_failed db job out dur err cfg now).2.logs = db.logs ++
        [{ job_id := job.id, state := stateFailed, success := false,
           attempts := job.attempts + 1, duration_ms := dur,
           output := some (combinedOutput out err), created_at := now }] ∧
      (job ∈ db.jobs → ∃ j', j' ∈ (mark_failed db job out dur err cfg now).2.jobs ∧
        j'.id = job.id ∧ j'.state = stateFailed ∧ j'.attempts = job.attempts + 1 ∧
        j'.worker_id = none ∧
        j'.next_retry_at =
          some (calculate_next_retry_time (job.attempts + 1) cfg.backoff_base now) ∧
        j'.updated_at = now)) := by
  constructor
  · intro hm
    refine ⟨?_, ?_, ?_⟩
    · simp only [mark_failed, if_pos hm]
    · simp only [mark_failed, if_pos hm]
      rfl
    · intro hmem
      simp only [mark_failed, if_pos hm]
      exact ⟨applyUpdates (deadUpdates (job.attempts + 1) (combinedOutput out err) dur) now job,
        update_job_mem db job.id _ now job hmem rfl, rfl, rfl, rfl, rfl, rfl, rfl, rfl⟩
  · intro hm
    refine ⟨?_, ?_, ?_⟩
    · simp only [mark_failed, if_neg (not_le.mpr hm)]
    · simp only [mark_failed, if_neg (not_le.mpr hm)]
      rfl
    · intro hmem
      simp only [mark_failed, if_neg (not_le.mpr hm)]
      exact ⟨applyUpdates (failedUpdates (job.attempts + 1)
          (calculate_next_retry_time (job.attempts + 1) cfg.backoff_base now)
          (combinedOutput out err) dur) now job,
        update_job_mem db job.id _ now job hmem rfl, rfl, rfl, rfl, rfl, rfl, rfl⟩

/-- C4 witness: the retry branch on a concrete failed job. -/
theorem mark_failed_contract_witness :
    ∃ j', j' ∈ (mark_failed dbF jobF none none none cfg0 10).2.jobs ∧
      j'.id = jobF.id ∧ j'.state = stateFailed ∧ j'.attempts = jobF.attempts + 1 ∧
      j'.worker_id = none ∧
      j'.next_retry_at =
        some (calculate_next_retry_time (jobF.attempts + 1) cfg0.backoff_base 10) ∧
      j'.updated_at = 10 :=
  ((mark_failed_contract dbF jobF none none none cfg0 10).2 (by decide)).2.2 (by decide)

/-- C5: `create_job` returns false on a primary-key collision, leaving the
database byte-for-byte unchanged (so every field of the first row survives and
the store keeps exactly one row per id), and `enqueue` surfaces the collision
as an error; on success the id was fresh and exactly one row with it exists
afterwards. -/
theorem create_job_unique (db : DB) (jd : JobData) (cfg : Config) (now : Time) :
    ((∃ j, j ∈ db.jobs ∧ j.id = jd.id) →
      create_job db jd now = (false, db) ∧
      ∀ r, ¬ enqueue db jd cfg now = Except.ok r) ∧
    (∀ db2, create_job db jd now = (true, db2) →
      (db.jobs.filter (fun j => decide (j.id = jd.id))).length = 0 ∧
      (db2.jobs.filter (fun j => decide (j.id = jd.id))).length = 1) := by
  constructor
  · intro hex
    have hany : db.jobs.any (fun j => decide (j.id = jd.id)) = true := by
      obtain ⟨j, hj, hid⟩ := hex
      exact List.any_eq_true.mpr ⟨j, hj, by simp [hid]⟩
    refine ⟨by simp [create_job, hany], ?_⟩
    intro r hok
    exact (enqueue_ok_shape db jd cfg now r.1 r.2 (by rw [hok])).2 hex.choose
      hex.choose_spec.1 hex.choose_spec.2
  · intro db2 hc
    by_cases hany : db.jobs.any (fun j => decide (j.id = jd.id)) = true
    · simp only [create_job] at hc
      rw [if_pos hany] at hc
      exact absurd hc (by simp)
    · have hanyf : db.jobs.any (fun j => decide (j.id = jd.id)) = false := by
        simpa using hany
      have hfilter : db.jobs.filter (fun j => decide (j.id = jd.id)) = [] :=
        List.filter_eq_nil_iff.mpr (List.any_eq_false.mp hanyf)
      simp only [create_job] at hc
      rw [if_neg hany] at hc
      simp only [Prod.mk.injEq] at hc
      refine ⟨by simp [hfilter], ?_⟩
      rw [← hc.2]
      simp [List.filter_append, hfilter, rowOfJobData]

/-- C5 witness: a duplicate id against a concrete two-job store. -/
theorem create_job_unique_witness :
    create_job dbNT jdP 9 = (false, dbNT) ∧
      ∀ r, ¬ enqueue dbNT jdP cfg0 9 = Except.ok r :=
  (create_job_unique dbNT jdP cfg0 9).1 ⟨jobP, by decide, rfl⟩

theorem retry_dead_job_true_shape (db : DB) (jid : String) (now : Time) (db2 : DB)
    (h : retry_dead_job db jid now = (true, db2)) :
    db2 = update_job db jid retryResetUpdates now ∧
      ∃ j, get_job db jid = some j ∧ j.state = stateDead := by
  unfold retry_dead_job at h
  cases hg : get_job db jid with
  | none =>
    rw [hg] at h
    exact absurd h (by simp)
  | some j =>
    rw [hg] at h
    simp only at h
    by_cases hd : j.state = stateDead
    · rw [if_pos hd] at h
      simp only [Prod.mk.injEq] at h
      exact ⟨h.2.symm, j, rfl, hd⟩
    · rw [if_neg hd] at h
      exact absurd h (by simp)

/-- C6 counterexample: the failed-to-processing lease does not clear
`next_retry_at` — the leased row comes back in state `processing` with its old
non-null `next_retry_at` intact. -/
theorem lease_keeps_next_retry_counterexample :
    ((get_failed_job_ready_for_retry dbF (fun d => d) "w" 10).1).map
        (fun j => (j.state, j.next_retry_at)) = some (stateProcessing, some 5) := by
  rfl

/-- C6 amended: `mark_completed`, the dead branch of `mark_failed` and
`retry_dead_job` clear `next_retry_at`; the retry branch of `mark_failed`
always sets it non-null; but the failed-to-processing lease does not clear
it — the leased row keeps its (non-null) `next_retry_at`. -/
theorem next_retry_at_clearing (db : DB) :
    (∀ job out dur now, ∀ j' ∈ (mark_completed db job out dur now).jobs,
      j'.id = job.id → j'.next_retry_at = none) ∧
    (∀ job out dur err cfg now, job.max_retries ≤ job.attempts + 1 →
      ∀ j' ∈ (mark_failed db job out dur err cfg now).2.jobs,
      j'.id = job.id → j'.next_retry_at = none) ∧
    (∀ job out dur err cfg now, job.attempts + 1 < job.max_retries →
      ∀ j' ∈ (mark_failed db job out dur err cfg now).2.jobs, j'.id = job.id →
      j'.next_retry_at =
        some (calculate_next_retry_time (job.attempts + 1) cfg.backoff_base now)) ∧
    (∀ jid now db2, retry_dead_job db jid now = (true, db2) →
      ∀ j' ∈ db2.jobs, j'.id = jid → j'.next_retry_at = none) ∧
    (∀ w now j, (db.jobs.map Job.id).Nodup →
      (get_failed_job_ready_for_retry db (fun d => d) w now).1 = some j →
      j.state = stateProcessing ∧ j.next_retry_at ≠ none) := by
  refine ⟨?_, ?_, ?_, ?_, ?_⟩
  · intro job out dur now j' hj' hid
    have hj2 : j' ∈ (update_job db job.id (completedUpdates out dur) now).jobs := hj'
    obtain ⟨a, _, _, ha⟩ := (update_job_rows db job.id _ now j' hj2).1 hid
    rw [ha]
    rfl
  · intro job out dur err cfg now hm j' hj' hid
    simp only [mark_failed, if_pos hm] at hj'
    have hj2 : j' ∈ (update_job db job.id
        (deadUpdates (job.attempts + 1) (combinedOutput out err) dur) now).jobs := hj'
    obtain ⟨a, _, _, ha⟩ := (update_job_rows db job.id _ now j' hj2).1 hid
    rw [ha]
    rfl
  · intro job out dur err cfg now hm j' hj' hid
    simp only [mark_failed, if_neg (not_le.mpr hm)] at hj'
    have hj2 : j' ∈ (update_job db job.id
        (failedUpdates (job.attempts + 1)
          (calculate_next_retry_time (job.attempts + 1) cfg.backoff_base now)
          (combinedOutput out err) dur) now).jobs := hj'
    obtain ⟨a, _, _, ha⟩ := (update_job_rows db job.id _ now j' hj2).1 hid
    rw [ha]
    rfl
  · intro jid now db2 h j' hj' hid
    obtain ⟨hdb2, _⟩ := retry_dead_job_true_shape db jid now db2 h
    rw [hdb2] at hj'
    obtain ⟨a, _, _, ha⟩ := (update_job_rows db jid _ now j' hj').1 hid
    rw [ha]
    rfl
  · intro w now j hnd hj
    cases hsel : selectRetryCandidate db now with
    | none =>
      rw [get_failed_job_select_none db _ w now hsel] at hj
      exact absurd hj (by simp)
    | some cand =>
      obtain ⟨hmem, hel, _⟩ := selectRetryCandidate_spec db now cand hsel
      rw [get_failed_job_locked db w now cand hnd hsel] at hj
      obtain ⟨t, ht, _⟩ := hel.2
      have hj2 := Option.some.injEq _ _ ▸ hj
      refine ⟨by rw [← hj2], ?_⟩
      rw [← hj2]
      simp only
      rw [ht]
      simp

/-- C6 witness: the clearing behaviour of `retry_dead_job` on a concrete dead
job. -/
theorem next_retry_at_clearing_witness :
    ∀ j' ∈ (retry_dead_job dbD "d" 11).2.jobs, j'.id = "d" → j'.next_retry_at = none :=
  (next_retry_at_clearing dbD).2.2.2.1 "d" 11 (retry_dead_job dbD "d" 11).2 (by rfl)

/-- C7 counterexample: with equal priorities, the job with NULL `run_at`
sorts *before* (not after) the job with a non-null `run_at`: `list_jobs`
returns it first and the pending lease selects it.  SQLite's
`ORDER BY ..., run_at IS NOT NULL, run_at ASC, ...` puts NULLs first. -/
theorem ordering_nulls_first_counterexample :
    (list_jobs dbNT none none).map Job.id = [jobP.id, jobT.id] ∧
      (selectPendingCandidate dbNT 10).map Job.id = some jobP.id ∧
      jobP.run_at = none ∧ jobT.run_at = some 5 ∧ jobP.priority = jobT.priority := by
  exact ⟨by rfl, by rfl, rfl, rfl, rfl⟩

/-- C7 amended: the lease candidates are minimal and `list_jobs` is sorted
for the orderings the code actually implements — `(priority DESC, run_at
NULLS FIRST ASC, created_at ASC)` for the pending lease, `(priority DESC,
next_retry_at ASC)` for retries, and `(priority DESC, run_at NULLS FIRST ASC,
created_at DESC)` for `list_jobs`; `list_jobs` output is a permutation of the
(possibly state-filtered) rows. -/
theorem ordering_contract (db : DB) (now : Time) :
    (∀ cand, selectPendingCandidate db now = some cand →
      cand ∈ db.jobs ∧ pendingEligible cand now ∧
      ∀ j ∈ db.jobs, pendingEligible j now → pendingKey cand ≤ pendingKey j) ∧
    (∀ cand, selectRetryCandidate db now = some cand →
      cand ∈ db.jobs ∧ retryEligible cand now ∧
      ∀ j ∈ db.jobs, retryEligible j now → retryKey cand ≤ retryKey j) ∧
    (∀ s l, List.Sorted listLe (list_jobs db s l)) ∧
    (List.Perm (list_jobs db none none) db.jobs) ∧
    (∀ s, ¬ s = "" → List.Perm (list_jobs db (some s) none)
      (db.jobs.filter (fun j => decide (j.state = s)))) := by
  refine ⟨?_, ?_, ?_, ?_, ?_⟩
  · exact fun cand h => selectPendingCandidate_spec db now cand h
  · exact fun cand h => selectRetryCandidate_spec db now cand h
  · intro s l
    cases l with
    | none => exact List.sorted_insertionSort listLe _
    | some n =>
      by_cases hz : n = 0
      · subst hz
        exact List.sorted_insertionSort listLe _
      · unfold list_jobs
        simp only
        rw [if_neg hz]
        exact List.Pairwise.sublist (List.take_sublist n _)
          (List.sorted_insertionSort listLe _)
  · exact List.perm_insertionSort listLe db.jobs
  · intro s hs
    unfold list_jobs
    simp only
    rw [if_neg hs]
    exact List.perm_insertionSort listLe _

/-- C7 witness: minimality of the selected pending candidate on a concrete
database. -/
theorem ordering_contract_witness :
    jobP ∈ dbNT.jobs ∧ pendingEligible jobP 10 ∧
      ∀ j ∈ dbNT.jobs, pendingEligible j 10 → pendingKey jobP ≤ pendingKey j :=
  (ordering_contract dbNT 10).1 jobP (by rfl)

/-- C8: `retry_dead_job` returns true iff a job with the given id exists in
state `dead`; on true, the row is reset to a fresh pending job (attempts 0,
`next_retry_at`, `worker_id`, `run_at` all null, `updated_at` bumped) and no
log row is written; on false nothing at all is mutated. -/
theorem retry_dead_job_contract (db : DB) (jid : String) (now : Time)
    (hnd : (db.jobs.map Job.id).Nodup) :
    ((retry_dead_job db jid now).1 = true ↔
      ∃ j ∈ db.jobs, j.id = jid ∧ j.state = stateDead) ∧
    ((retry_dead_job db jid now).1 = true →
      (retry_dead_job db jid now).2.logs = db.logs ∧
      ∀ j' ∈ (retry_dead_job db jid now).2.jobs, j'.id = jid →
        j'.state = statePending ∧ j'.attempts = 0 ∧ j'.next_retry_at = none ∧
        j'.worker_id = none ∧ j'.run_at = none ∧ j'.updated_at = now) ∧
    ((retry_dead_job db jid now).1 = false → (retry_dead_job db jid now).2 = db) := by
  unfold retry_dead_job
  cases hg : get_job db jid with
  | none =>
    have hnone := List.find?_eq_none.mp hg
    refine ⟨?_, ?_, fun _ => rfl⟩
    · refine iff_of_false (by simp) ?_
      rintro ⟨j, hj, hid, _⟩
      exact absurd hid (by simpa using hnone j hj)
    · intro h
      exact absurd h (by simp)
  | some j =>
    simp only
    have hjmem : j ∈ db.jobs := List.mem_of_find?_eq_some hg
    have hjid : j.id = jid := by simpa using List.find?_some hg
    by_cases hd : j.state = stateDead
    · rw [if_pos hd]
      refine ⟨iff_of_true rfl ⟨j, hjmem, hjid, hd⟩, ?_, ?_⟩
      · intro _
        refine ⟨rfl, ?_⟩
        intro j' hj' hid'
        obtain ⟨a, _, _, ha⟩ := (update_job_rows db jid retryResetUpdates now j' hj').1 hid'
        rw [ha]
        exact ⟨rfl, rfl, rfl, rfl, rfl, rfl⟩
      · intro h
        exact absurd h (by simp)
    · rw [if_neg hd]
      refine ⟨?_, ?_, fun _ => rfl⟩
      · refine iff_of_false (by simp) ?_
        rintro ⟨k, hk, hkid, hkdead⟩
        have hkj : k = j := List.inj_on_of_nodup_map hnd hk hjmem (by rw [hkid, hjid])
        exact hd (hkj ▸ hkdead)
      · intro h
        exact absurd h (by simp)

/-- C8 witness: the reset behaviour on a concrete dead job. -/
theorem retry_dead_job_contract_witness :
    (retry_dead_job dbD "d" 11).2.logs = dbD.logs ∧
      ∀ j' ∈ (retry_dead_job dbD "d" 11).2.jobs, j'.id = "d" →
        j'.state = statePending ∧ j'.attempts = 0 ∧ j'.next_retry_at = none ∧
        j'.worker_id = none ∧ j'.run_at = none ∧ j'.updated_at = 11 :=
  (retry_dead_job_contract dbD "d" 11 (by decide)).2.1 (by rfl)

/-- C9: the backoff clock computes exactly `now + base ^ attempts` with no
jitter, and the retry branch of `mark_failed` stamps the k-th failure's row
with `next_retry_at = now + base ^ k` where `k` is the post-increment attempt
count. -/
theorem backoff_schedule (db : DB) (job : Job) (out : Option String) (dur : Option Int)
    (err : Option String) (cfg : Config) (now : Time) :
    (∀ a b n, calculate_next_retry_time a b n = n + b ^ a) ∧
    (job.attempts + 1 < job.max_retries → job ∈ db.jobs →
      ∃ j', j' ∈ (mark_failed db job out dur err cfg now).2.jobs ∧ j'.id = job.id ∧
        j'.next_retry_at = some (now + cfg.backoff_base ^ (job.attempts + 1))) := by
  refine ⟨fun a b n => rfl, ?_⟩
  intro hm hmem
  simp only [mark_failed, if_neg (not_le.mpr hm)]
  exact ⟨applyUpdates (failedUpdates (job.attempts + 1)
      (calculate_next_retry_time (job.attempts + 1) cfg.backoff_base now)
      (combinedOutput out err) dur) now job,
    update_job_mem db job.id _ now job hmem rfl, rfl, rfl⟩

/-- C9 witness: the first retry of a once-failed job is scheduled at
`now + base ^ 2`. -/
theorem backoff_schedule_witness :
    ∃ j', j' ∈ (mark_failed dbF jobF none none none cfg0 10).2.jobs ∧ j'.id = jobF.id ∧
      j'.next_retry_at = some (10 + cfg0.backoff_base ^ (jobF.attempts + 1)) :=
  (backoff_schedule dbF jobF none none none cfg0 10).2 (by decide) (by decide)

/-- C10 counterexample: a job with `max_retries = 0` dies on its first failure
with `attempts = 1 ≠ 0 = max_retries`, so the dead row's attempts do not in
general equal `max_retries`. -/
theorem dead_attempts_exceed_counterexample :
    (mark_failed dbZ jobZ none none none cfg0 10).1 = false ∧
      ((mark_failed dbZ jobZ none none none cfg0 10).2.jobs.find?
          (fun j => decide (j.id = "z"))).map (fun j => (j.state, j.attempts)) =
        some (stateDead, 1) ∧
      jobZ.max_retries = 0 :=
  ⟨rfl, rfl, rfl⟩

/-- C10 amended: on the dead branch the recorded attempts equal the dispatch
attempts plus one, which is at least `max_retries`; it equals `max_retries`
exactly when the job was dispatched with `attempts < max_retries` (the normal
lifecycle case), and exceeds it otherwise (for example `max_retries = 0`). -/
theorem dead_attempts_contract (db : DB) (job : Job) (out : Option String)
    (dur : Option Int) (err : Option String) (cfg : Config) (now : Time)
    (hm : job.max_retries ≤ job.attempts + 1) :
    (∀ j' ∈ (mark_failed db job out dur err cfg now).2.jobs, j'.id = job.id →
      j'.attempts = job.attempts + 1 ∧ job.max_retries ≤ j'.attempts) ∧
    (job.attempts < job.max_retries → job.attempts + 1 = job.max_retries) := by
  constructor
  · intro j' hj' hid
    simp only [mark_failed, if_pos hm] at hj'
    have hj2 : j' ∈ (update_job db job.id
        (deadUpdates (job.attempts + 1) (combinedOutput out err) dur) now).jobs := hj'
    obtain ⟨a, _, _, ha⟩ := (update_job_rows db job.id _ now j' hj2).1 hid
    rw [ha]
    exact ⟨rfl, hm⟩
  · intro hlt
    exact Nat.le_antisymm (Nat.succ_le_of_lt hlt) hm

/-- C10 witness: the amended contract at the zero-`max_retries` job. -/
theorem dead_attempts_contract_witness :
    (∀ j' ∈ (mark_failed dbZ jobZ none none none cfg0 10).2.jobs, j'.id = jobZ.id →
      j'.attempts = jobZ.attempts + 1 ∧ jobZ.max_retries ≤ j'.attempts) ∧
    (jobZ.attempts < jobZ.max_retries → jobZ.attempts + 1 = jobZ.max_retries) :=
  dead_attempts_contract dbZ jobZ none none none cfg0 10 (by decide)

end QueueCTL
